import Mathlib

/-!
Shallow embedding of the task-tracking assistant bot (src/src/main.py) in
Lean 4: the SQLite-backed task store (`create_task`, `get_user_tasks`,
`get_all_tasks`, `complete_task`), the `/task` slash-command handling in
`slack_commands`, the OpenAI chat wrapper `chat_with_openai`, the Slack
message-event handler `slack_events`, and the direct HTTP endpoints `/tasks`
and `/chat`.

Modelling choices, all taken from the source:
* The `tasks` table is a list of `Task` records plus the AUTOINCREMENT
  counter `nextId` (sqlite AUTOINCREMENT: ids are assigned from a strictly
  increasing counter and never reused).
* `CURRENT_TIMESTAMP` is passed in explicitly as a `Nat` argument `now`.
* SQL `user_id = ?` comparison follows SQL NULL semantics: a NULL on either
  side never matches (`sqlEq`).
* Python truthiness of an optional string (`not event.get('bot_id')`,
  `if not openai.api_key`) is `pyTruthy`: `None` and `""` are falsy.
* Python `int(str)` is `pythonInt`: surrounding whitespace, an optional
  sign, decimal digits with single underscores between digits; it accepts
  zero and negative numbers.
* `text.split(' ', 1)` splits on the first literal space character only
  (`splitSp`).
-/

namespace Main

/-- A row of the `tasks` table (see `init_db`): id, title, description,
status, created_at, updated_at, user_id, channel_id. `user_id` and
`channel_id` are nullable TEXT columns. -/
structure Task where
  id : Nat
  title : String
  descr : String
  status : String
  createdAt : Nat
  updatedAt : Nat
  userId : Option String
  channelId : Option String
deriving DecidableEq, Repr

/-- The persistent store: the rows of the `tasks` table together with the
AUTOINCREMENT counter for `id` (next id to be assigned; starts at 1 on a
fresh database). -/
structure TaskStore where
  tasks : List Task
  nextId : Nat
deriving DecidableEq, Repr

/-- The empty store of a freshly created database. -/
def emptyStore : TaskStore := ⟨[], 1⟩

/-- SQL equality on nullable TEXT: `user_id = ?` matches only when both
sides are non-NULL and equal (NULL = anything is not true in SQL). -/
def sqlEq : Option String → Option String → Bool
  | some a, some b => a == b
  | _, _ => false

/-- Python truthiness of an optional string: `None` and `""` are falsy,
any other string is truthy. -/
def pyTruthy : Option String → Bool
  | none => false
  | some s => s != ""

/-- `create_task(title, user_id, channel_id=None, description="")`:
INSERT the new row (status defaults to 'pending', both timestamps default
to CURRENT_TIMESTAMP), return `cursor.lastrowid`. -/
def create_task (store : TaskStore) (now : Nat) (title : String)
    (userId : Option String) (channelId : Option String := none)
    (descr : String := "") : TaskStore × Nat :=
  let t : Task :=
    { id := store.nextId, title := title, descr := descr,
      status := "pending", createdAt := now, updatedAt := now,
      userId := userId, channelId := channelId }
  ({ tasks := store.tasks ++ [t], nextId := store.nextId + 1 }, store.nextId)

/-- The WHERE clause of `complete_task`: `id = ? AND user_id = ?`.
`taskId` is an `Int` because the slash-command handler feeds it the result
of Python `int(...)`, which can be zero or negative. -/
def rowMatch (taskId : Int) (userId : Option String) (t : Task) : Bool :=
  (Int.ofNat t.id == taskId) && sqlEq t.userId userId

/-- The row transform of the UPDATE: a matched row gets
`status='completed', updated_at=CURRENT_TIMESTAMP`, any other row is left
as it is. -/
def completeRow (now : Nat) (taskId : Int) (userId : Option String)
    (t : Task) : Task :=
  if rowMatch taskId userId t then
    { t with status := "completed", updatedAt := now }
  else t

/-- `complete_task(task_id, user_id)`: UPDATE tasks SET status='completed',
updated_at=CURRENT_TIMESTAMP WHERE id=? AND user_id=?; return
`rowcount > 0`. The update applies regardless of the current status. -/
def complete_task (store : TaskStore) (now : Nat) (taskId : Int)
    (userId : Option String) : TaskStore × Bool :=
  let affected := store.tasks.countP (fun t => rowMatch taskId userId t)
  ({ store with tasks := store.tasks.map (completeRow now taskId userId) },
   decide (0 < affected))

/-- The ORDER BY created_at DESC ordering of the two SELECT queries. -/
def byCreatedDesc (a b : Task) : Prop := b.createdAt ≤ a.createdAt

instance : DecidableRel byCreatedDesc := fun a b =>
  inferInstanceAs (Decidable (b.createdAt ≤ a.createdAt))

instance : IsTotal Task byCreatedDesc :=
  ⟨fun a b => Nat.le_total b.createdAt a.createdAt⟩

instance : IsTrans Task byCreatedDesc :=
  ⟨fun _ _ _ h h' => Nat.le_trans h' h⟩

/-- `get_user_tasks(user_id)`: SELECT ... FROM tasks WHERE user_id = ?
ORDER BY created_at DESC. -/
def get_user_tasks (store : TaskStore) (userId : Option String) : List Task :=
  List.insertionSort byCreatedDesc
    (store.tasks.filter (fun t => sqlEq t.userId userId))

/-- `get_all_tasks()`: SELECT ... FROM tasks ORDER BY created_at DESC. -/
def get_all_tasks (store : TaskStore) : List Task :=
  List.insertionSort byCreatedDesc store.tasks

/-- Python `str` whitespace (ASCII part), as stripped by `int(str)`. -/
def isPyWs (c : Char) : Bool :=
  c == ' ' || c == '\t' || c == '\n' || c == '\x0d' || c == '\x0b' || c == '\x0c'

/-- Decimal digits with single underscores allowed between digits, as in
Python numeric literals accepted by `int(str)`; `acc` is the value of the
digits already consumed. -/
def pyDigitsVal (acc : Nat) : List Char → Option Nat
  | [] => some acc
  | c :: cs =>
    if c.isDigit then pyDigitsVal (acc * 10 + (c.toNat - 48)) cs
    else if c == '_' then
      match cs with
      | d :: ds =>
        if d.isDigit then pyDigitsVal (acc * 10 + (d.toNat - 48)) ds else none
      | [] => none
    else none

/-- The digit run must start with a digit (no leading underscore). -/
def pyDigitsStart : List Char → Option Nat
  | [] => none
  | c :: cs => if c.isDigit then pyDigitsVal (c.toNat - 48) cs else none

/-- Sign handling of Python `int(str)` after stripping whitespace. -/
def pythonIntCore : List Char → Option Int
  | '+' :: rest => (pyDigitsStart rest).map Int.ofNat
  | '-' :: rest => (pyDigitsStart rest).map (fun n => -(Int.ofNat n))
  | rest => (pyDigitsStart rest).map Int.ofNat

/-- Python `int(str)`: strip surrounding whitespace, optional sign, decimal
digits (single underscores between digits allowed); `none` models the
`ValueError` raised on any other input. Accepts zero and negatives. -/
def pythonInt (s : String) : Option Int :=
  pythonIntCore
    (((s.data.dropWhile isPyWs).reverse.dropWhile isPyWs).reverse)

/-- Python `text.split(' ', 1)` : the part before the first literal space
character, and — when a space occurs at all — everything after it
(`none` when the string has no space, so `len(parts) == 1`). -/
def splitSp : List Char → List Char × Option (List Char)
  | [] => ([], none)
  | c :: cs =>
    if c = ' ' then ([], some cs)
    else
      let r := splitSp cs
      (c :: r.1, r.2)

/-- Python `str.lower()` (ASCII letters; the command tokens compared against
are ASCII). -/
def pyLower (s : String) : String := ⟨s.data.map Char.toLower⟩

/-- The typed outcome of routing the body of a `/task` slash command
(the branch taken by `slack_commands` before any store call). -/
inductive Command where
  | create (title : String)
  | list
  | complete (taskId : Int)
  | usage (msg : String)
  | parseError (msg : String)
deriving DecidableEq, Repr

/-- The canonical usage string returned by `slack_commands` on empty `/task`
text and on any unrecognized action. -/
def usageString : String := "Usage: /task [create|list|complete] <description>"

/-- The user-facing message of the `complete` parse failure. -/
def parseErrMsg : String := "Please provide a valid task ID number."

/-- The command-routing logic of the `/task` branch of `slack_commands`:
`if not text` yields usage; otherwise `parts = text.split(' ', 1)`,
`action = parts[0].lower()`; `create` and `complete` additionally require
`len(parts) > 1`; `complete` parses `parts[1]` with Python `int`;
any other combination falls through to the usage reply. -/
def routeTask (text : String) : Command :=
  if text = "" then .usage usageString
  else
    let parts := splitSp text.data
    let action := pyLower ⟨parts.1⟩
    match parts.2 with
    | some restL =>
      if action = "create" then .create ⟨restL⟩
      else if action = "list" then .list
      else if action = "complete" then
        match pythonInt ⟨restL⟩ with
        | some n => .complete n
        | none => .parseError parseErrMsg
      else .usage usageString
    | none =>
      if action = "list" then .list
      else .usage usageString

/-- A Slack slash-command reply: the text and the `response_type` field
(`"ephemeral"` or `"in_channel"`). -/
structure SlashReply where
  text : String
  responseType : String
deriving DecidableEq, Repr

/-- `#<id>: <title> (<status>)`, one line per task, or the literal
`"No tasks found."` when the list is empty (the `/task list` reply body). -/
def formatTasks (ts : List Task) : String :=
  if ts = [] then "No tasks found."
  else
    String.intercalate "\n"
      (ts.map (fun t =>
        "#" ++ toString t.id ++ ": " ++ t.title ++ " (" ++ t.status ++ ")"))

/-- The `/task` branch of `slack_commands`: route the text, perform the
store call of the routed action, and build the reply. -/
def handleTask (store : TaskStore) (now : Nat) (text : String)
    (userId : Option String) (channelId : Option String) :
    TaskStore × SlashReply :=
  match routeTask text with
  | .usage m => (store, ⟨m, "ephemeral"⟩)
  | .parseError m => (store, ⟨m, "ephemeral"⟩)
  | .create title =>
    let r := create_task store now title userId channelId
    (r.1, ⟨"Task created with ID: " ++ toString r.2, "in_channel"⟩)
  | .list =>
    (store,
     ⟨"Your tasks:\n" ++ formatTasks (get_user_tasks store userId),
      "ephemeral"⟩)
  | .complete tid =>
    let r := complete_task store now tid userId
    if r.2 then
      (r.1, ⟨"Task #" ++ toString tid ++ " marked as complete!", "in_channel"⟩)
    else
      (r.1, ⟨"Task #" ++ toString tid ++ " not found or not yours.",
             "ephemeral"⟩)

/-- The outcome of the external OpenAI call attempted by
`chat_with_openai` when a key is configured: the reply, or one of the
exception classes its `except` arms catch. -/
inductive OpenAIOutcome where
  | success (reply : String)
  | authFailure
  | rateLimited
  | otherFailure (msg : String)
deriving DecidableEq, Repr

/-- The module-level configuration read from the environment:
`openai.api_key` (`None` when the variable is unset). -/
structure OpenAIConfig where
  apiKey : Option String
deriving DecidableEq, Repr

/-- The fixed reply when no API key is configured. -/
def notConfiguredMsg : String :=
  "OpenAI API key not configured. Please set OPENAI_API_KEY environment variable."

/-- The reply of the `except openai.error.AuthenticationError` arm. -/
def authFailedMsg : String := "Authentication failed. Please check your OpenAI API key."

/-- The reply of the `except openai.error.RateLimitError` arm. -/
def rateLimitMsg : String := "Rate limit exceeded. Please try again later."

/-- The reply of the catch-all `except Exception` arm. -/
def otherErrMsg : String := "Sorry, I encountered an error processing your request."

/-- `chat_with_openai(message, user_id=None)`: with a falsy key return the
fixed instructional string; otherwise return the completion's content
stripped, or the fixed string of whichever exception arm caught the
failure. Always returns a string, never propagates an exception. -/
def chat_with_openai (cfg : OpenAIConfig) (outcome : OpenAIOutcome)
    (message : String) (userId : Option String) : String :=
  if pyTruthy cfg.apiKey = false then notConfiguredMsg
  else
    match outcome with
    | .success reply => reply.trim
    | .authFailure => authFailedMsg
    | .rateLimited => rateLimitMsg
    | .otherFailure _ => otherErrMsg

/-- The `event` object of a Slack `message` event callback, with the fields
`slack_events` reads: `type`, `bot_id`, `user`, `channel`, `text`.
`none` models an absent key. -/
structure SlackMessageEvent where
  eventType : String
  botId : Option String
  user : Option String
  channel : Option String
  text : Option String
deriving DecidableEq, Repr

/-- What the event handler did: the `status` field of the synchronous JSON
acknowledgment, whether `chat_with_openai` was invoked, and the reply it
produced (which `slack_events` only logs, never returns). -/
structure EventsResult where
  ackStatus : String
  gatewayCalled : Bool
  gatewayReply : Option String
deriving DecidableEq, Repr

/-- The trigger phrase checked by `slack_events`. -/
def triggerPhrase : String := "ai assistant"

/-- `needle` occurs as a prefix of `hay`. -/
def startsWithSub : List Char → List Char → Bool
  | [], _ => true
  | _ :: _, [] => false
  | a :: as, b :: bs => a == b && startsWithSub as bs

/-- Python `needle in hay` substring containment. -/
def hasSub (needle hay : List Char) : Bool :=
  match hay with
  | [] => startsWithSub needle []
  | _ :: t => startsWithSub needle hay || hasSub needle t

/-- The event branch of `slack_events`: on an event of type `message` whose
`bot_id` is falsy and whose text (defaulted to `""`) contains
`'ai assistant'` case-insensitively, call `chat_with_openai` and log the
reply; in every case the synchronous acknowledgment is `{'status': 'ok'}`,
modelled by its status field `"ok"`. -/
def slack_events (cfg : OpenAIConfig) (outcome : OpenAIOutcome)
    (ev : SlackMessageEvent) : EventsResult :=
  if ev.eventType = "message" ∧ pyTruthy ev.botId = false then
    let text := ev.text.getD ""
    if hasSub triggerPhrase.data (pyLower text).data then
      ⟨"ok", true, some (chat_with_openai cfg outcome text ev.user)⟩
    else ⟨"ok", false, none⟩
  else ⟨"ok", false, none⟩

/-- The JSON body of a `POST /tasks` request, fields as read by `tasks()`:
`title` (required), `description` (default `""`), `user_id` (default
`'api_user'`), `channel_id` (default `None`). `none` models an absent key. -/
structure TasksPostBody where
  title : Option String
  descr : Option String
  userId : Option String
  channelId : Option String
deriving DecidableEq, Repr

/-- The POST branch of `tasks()`: 400 (`none`) when `title` is absent,
otherwise `create_task(title, user_id, channel_id, description)` with the
dict-get defaults applied, returning the new id. -/
def tasks_post (store : TaskStore) (now : Nat) (body : TasksPostBody) :
    TaskStore × Option Nat :=
  match body.title with
  | none => (store, none)
  | some title =>
    let r := create_task store now title (some (body.userId.getD "api_user"))
      body.channelId (body.descr.getD "")
    (r.1, some r.2)

/-- The owner attributed by the `/chat` endpoint:
`data.get('user_id', 'api_user')`. -/
def chatUserId (provided : Option String) : String := provided.getD "api_user"

/-- A mutating store operation of the core (queries mutate nothing): the
store writes reachable through any endpoint. -/
inductive StoreOp where
  | create (now : Nat) (title : String) (userId : Option String)
      (channelId : Option String) (descr : String)
  | complete (now : Nat) (taskId : Int) (userId : Option String)
deriving DecidableEq, Repr

/-- Apply one mutating operation to the store. -/
def applyOp (store : TaskStore) : StoreOp → TaskStore
  | .create now title uid cid d => (create_task store now title uid cid d).1
  | .complete now tid uid => (complete_task store now tid uid).1

/-- Run a sequence of `create` calls, collecting the returned ids. -/
def createMany (store : TaskStore) (now : Nat) :
    List (String × Option String) → TaskStore × List Nat
  | [] => (store, [])
  | (title, uid) :: reqs =>
    let r := create_task store now title uid
    let rest := createMany r.1 now reqs
    (rest.1, r.2 :: rest.2)

/-! ### Basic unfolding lemmas for the store operations -/

lemma complete_task_fst_tasks (store : TaskStore) (now : Nat) (taskId : Int)
    (owner : Option String) :
    (complete_task store now taskId owner).1.tasks =
      store.tasks.map (completeRow now taskId owner) := rfl

lemma completeRow_id (now : Nat) (taskId : Int) (owner : Option String)
    (t : Task) : (completeRow now taskId owner t).id = t.id := by
  unfold completeRow
  split <;> rfl

lemma completeRow_userId (now : Nat) (taskId : Int) (owner : Option String)
    (t : Task) : (completeRow now taskId owner t).userId = t.userId := by
  unfold completeRow
  split <;> rfl

lemma completeRow_status (now : Nat) (taskId : Int) (owner : Option String)
    (t : Task) :
    (completeRow now taskId owner t).status = "completed"
      ∨ (completeRow now taskId owner t) = t := by
  unfold completeRow
  split
  · exact Or.inl rfl
  · exact Or.inr rfl

lemma complete_task_fst_nextId (store : TaskStore) (now : Nat) (taskId : Int)
    (owner : Option String) :
    (complete_task store now taskId owner).1.nextId = store.nextId := rfl

lemma complete_task_snd_def (store : TaskStore) (now : Nat) (taskId : Int)
    (owner : Option String) :
    (complete_task store now taskId owner).2 =
      decide (0 < store.tasks.countP (fun t => rowMatch taskId owner t)) := rfl

lemma rowMatch_update (taskId : Int) (owner : Option String) (now : Nat)
    (t : Task) :
    rowMatch taskId owner { t with status := "completed", updatedAt := now } =
      rowMatch taskId owner t := rfl

lemma complete_task_true_iff (store : TaskStore) (now : Nat) (taskId : Int)
    (owner : Option String) :
    (complete_task store now taskId owner).2 = true ↔
      ∃ t ∈ store.tasks, rowMatch taskId owner t = true := by
  simp [complete_task_snd_def]

lemma storeExt (s s' : TaskStore) (h1 : s.tasks = s'.tasks)
    (h2 : s.nextId = s'.nextId) : s = s' := by
  cases s
  cases s'
  simp_all

lemma complete_task_no_match (store : TaskStore) (now : Nat) (taskId : Int)
    (owner : Option String)
    (h : ∀ t ∈ store.tasks, rowMatch taskId owner t = false) :
    (complete_task store now taskId owner).1 = store := by
  apply storeExt
  · rw [complete_task_fst_tasks]
    calc
      store.tasks.map (completeRow now taskId owner)
        = store.tasks.map id :=
          List.map_congr_left (fun a ha => by simp [completeRow, h a ha])
      _ = store.tasks := List.map_id store.tasks
  · exact complete_task_fst_nextId store now taskId owner

/-- Claim C1: `complete(task_id, owner_id)` returns true, sets the matching
task's status to `completed` and refreshes its `updated_at`, exactly when a
task with that id exists and its owner matches the caller, regardless of the
task's current status; a second call by the true owner returns true again
(idempotent success); on a missing id or an owner mismatch it returns false
and leaves the store entirely unchanged. -/
theorem complete_task_correct (store : TaskStore) (now now2 : Nat)
    (taskId : Int) (owner : Option String) :
    ((complete_task store now taskId owner).2 = true ↔
      ∃ t ∈ store.tasks, rowMatch taskId owner t = true)
    ∧ ((complete_task store now taskId owner).2 = false →
        (complete_task store now taskId owner).1 = store)
    ∧ (∀ t ∈ store.tasks, rowMatch taskId owner t = true →
        { t with status := "completed", updatedAt := now }
          ∈ (complete_task store now taskId owner).1.tasks)
    ∧ (∀ t ∈ store.tasks, rowMatch taskId owner t = false →
        t ∈ (complete_task store now taskId owner).1.tasks)
    ∧ ((complete_task store now taskId owner).2 = true →
        (complete_task (complete_task store now taskId owner).1 now2 taskId
          owner).2 = true) := by
  refine ⟨complete_task_true_iff store now taskId owner, ?_, ?_, ?_, ?_⟩
  · intro h
    apply complete_task_no_match
    intro t ht
    cases hb : rowMatch taskId owner t with
    | false => rfl
    | true =>
      exfalso
      have : (complete_task store now taskId owner).2 = true :=
        (complete_task_true_iff store now taskId owner).2 ⟨t, ht, hb⟩
      rw [this] at h
      exact Bool.noConfusion h
  · intro t ht hm
    rw [complete_task_fst_tasks]
    have := List.mem_map_of_mem (completeRow now taskId owner) ht
    simpa [completeRow, hm] using this
  · intro t ht hm
    rw [complete_task_fst_tasks]
    have := List.mem_map_of_mem (completeRow now taskId owner) ht
    simpa [completeRow, hm] using this
  · intro h
    obtain ⟨t, ht, hm⟩ := (complete_task_true_iff store now taskId owner).1 h
    apply (complete_task_true_iff _ now2 taskId owner).2
    refine ⟨{ t with status := "completed", updatedAt := now }, ?_, ?_⟩
    · rw [complete_task_fst_tasks]
      have := List.mem_map_of_mem (completeRow now taskId owner) ht
      simpa [completeRow, hm] using this
    · rw [rowMatch_update]
      exact hm

/-- Claim C2 counterexample: `create_task` with an empty title does not fail
and does insert a record — on a fresh store, `create("", "U1")` inserts a
task with empty title and returns id 1, contradicting the claim that it
fails with `ValidationError` and inserts no task record. -/
theorem create_empty_title_cex :
    (create_task emptyStore 0 "" (some "U1")).1.tasks =
      [⟨1, "", "", "pending", 0, 0, some "U1", none⟩]
    ∧ (create_task emptyStore 0 "" (some "U1")).2 = 1 := by
  constructor <;> rfl

/-- Claim C2 (amended): `create` performs no validation of the title: for
every title — the empty string included — it succeeds, returns the next id,
and inserts exactly one new pending record with exactly that title; in
particular `create("", owner)` succeeds and inserts a task with empty
title, and `create(" x ", owner)` succeeds. -/
theorem create_task_accepts_any_title (store : TaskStore) (now : Nat)
    (title : String) (owner : Option String) (cid : Option String)
    (d : String) :
    (create_task store now title owner cid d).2 = store.nextId
    ∧ (create_task store now title owner cid d).1.tasks.length =
        store.tasks.length + 1
    ∧ (∃ t ∈ (create_task store now title owner cid d).1.tasks,
        t.title = title ∧ t.status = "pending" ∧ t.userId = owner
          ∧ t.id = store.nextId ∧ t.createdAt = now ∧ t.updatedAt = now)
    ∧ (∀ t ∈ store.tasks, t ∈ (create_task store now title owner cid d).1.tasks) := by
  refine ⟨rfl, by simp [create_task], ?_, ?_⟩
  · refine ⟨⟨store.nextId, title, d, "pending", now, now, owner, cid⟩,
      ?_, rfl, rfl, rfl, rfl, rfl, rfl⟩
    simp [create_task]
  · intro t ht
    simp only [create_task, List.mem_append]
    exact Or.inl ht

/-! ### Router lemmas -/

lemma splitSp_append_space (pre : List Char) (rest : List Char)
    (h : ∀ c ∈ pre, c ≠ ' ') :
    splitSp (pre ++ ' ' :: rest) = (pre, some rest) := by
  induction pre with
  | nil => simp [splitSp]
  | cons c cs ih =>
    have hc : c ≠ ' ' := h c (by simp)
    have hcs : ∀ x ∈ cs, x ≠ ' ' := fun x hx => h x (by simp [hx])
    simp [splitSp, hc, ih hcs]

lemma splitSp_no_space (l : List Char) (h : ∀ c ∈ l, c ≠ ' ') :
    splitSp l = (l, none) := by
  induction l with
  | nil => simp [splitSp]
  | cons c cs ih =>
    have hc : c ≠ ' ' := h c (by simp)
    have hcs : ∀ x ∈ cs, x ≠ ' ' := fun x hx => h x (by simp [hx])
    simp [splitSp, hc, ih hcs]

lemma append_space_data (a rest : String) :
    (a ++ " " ++ rest).data = a.data ++ ' ' :: rest.data := by
  simp

lemma append_space_ne_empty (a rest : String) : a ++ " " ++ rest ≠ "" := by
  intro h
  have : (a ++ " " ++ rest).data = ([] : List Char) := by rw [h]
  rw [append_space_data] at this
  simpa using congrArg List.length this

lemma routeTask_action_rest (a rest : String) (h : ∀ c ∈ a.data, c ≠ ' ') :
    routeTask (a ++ " " ++ rest) =
      (if pyLower a = "create" then .create rest
       else if pyLower a = "list" then .list
       else if pyLower a = "complete" then
         match pythonInt rest with
         | some n => Command.complete n
         | none => Command.parseError parseErrMsg
       else .usage usageString) := by
  unfold routeTask
  rw [if_neg (append_space_ne_empty a rest)]
  have hd : (a ++ " " ++ rest).data = a.data ++ ' ' :: rest.data :=
    append_space_data a rest
  rw [hd, splitSp_append_space a.data rest.data h]

lemma routeTask_action_only (a : String) (hne : a ≠ "")
    (h : ∀ c ∈ a.data, c ≠ ' ') :
    routeTask a =
      (if pyLower a = "list" then .list else .usage usageString) := by
  unfold routeTask
  rw [if_neg hne, splitSp_no_space a.data h]

/-- Claim C3 counterexample: the router splits on the first literal space
character, not on a whitespace run — `"create\tbuy cups"` (tab between the
action and its argument, space later) parses its action token as
`"create\tbuy"`, which is unrecognized, so the result is the usage reply
rather than `Create("buy cups")`. -/
theorem commandRouter_tab_cex :
    routeTask "create\tbuy cups" = Command.usage usageString
    ∧ routeTask "create\tbuy cups" ≠ Command.create "buy cups" := by
  constructor
  · rfl
  · intro h
    exact Command.noConfusion ((rfl : routeTask "create\tbuy cups" =
      Command.usage usageString).symm.trans h)

/-- Claim C3 (amended): the `/task` router splits its input at the first
literal space character (not a general whitespace run) into
`(action, rest)`, lowercases the action and matches it case-insensitively
against `create`, `list`, `complete`: empty input, an unrecognized action,
or `create`/`complete` without a rest yield the usage reply carrying exactly
`"Usage: /task [create|list|complete] <description>"`; `"create buy cups"`
yields `Create("buy cups")`; `"complete 7"` yields `Complete(7)`; `list`
ignores any rest. -/
theorem commandRouter_amended :
    routeTask "" = Command.usage usageString
    ∧ routeTask "create buy cups" = Command.create "buy cups"
    ∧ routeTask "complete 7" = Command.complete 7
    ∧ routeTask "complete abc" = Command.parseError parseErrMsg
    ∧ routeTask "bogus" = Command.usage usageString
    ∧ routeTask "list" = Command.list
    ∧ usageString = "Usage: /task [create|list|complete] <description>"
    ∧ (∀ a rest : String, (∀ c ∈ a.data, c ≠ ' ') → pyLower a = "create" →
        routeTask (a ++ " " ++ rest) = Command.create rest)
    ∧ (∀ a rest : String, (∀ c ∈ a.data, c ≠ ' ') → pyLower a = "list" →
        routeTask (a ++ " " ++ rest) = Command.list)
    ∧ (∀ a rest : String, (∀ c ∈ a.data, c ≠ ' ') →
        pyLower a ≠ "create" → pyLower a ≠ "list" → pyLower a ≠ "complete" →
        routeTask (a ++ " " ++ rest) = Command.usage usageString)
    ∧ (∀ a : String, a ≠ "" → (∀ c ∈ a.data, c ≠ ' ') → pyLower a = "list" →
        routeTask a = Command.list)
    ∧ (∀ a : String, a ≠ "" → (∀ c ∈ a.data, c ≠ ' ') → pyLower a ≠ "list" →
        routeTask a = Command.usage usageString) := by
  refine ⟨rfl, rfl, rfl, rfl, rfl, rfl, rfl, ?_, ?_, ?_, ?_, ?_⟩
  · intro a rest hs hl
    rw [routeTask_action_rest a rest hs, if_pos hl]
  · intro a rest hs hl
    rw [routeTask_action_rest a rest hs, if_neg (by simp [hl]), if_pos hl]
  · intro a rest hs h1 h2 h3
    rw [routeTask_action_rest a rest hs, if_neg h1, if_neg h2, if_neg h3]
  · intro a hne hs hl
    rw [routeTask_action_only a hne hs, if_pos hl]
  · intro a hne hs hl
    rw [routeTask_action_only a hne hs, if_neg hl]

/-- Claim C4 counterexample: a rest that is not a positive integer does not
always yield `ParseError` — Python `int` accepts `"-5"`, so
`"complete -5"` routes to `Complete(-5)` (a store lookup that will find
nothing), and a missing rest (`"complete"` alone) falls through to the
usage reply, not `ParseError`. -/
theorem completeCmd_nonpositive_cex :
    routeTask "complete -5" = Command.complete (-5)
    ∧ routeTask "complete 0" = Command.complete 0
    ∧ routeTask "complete" = Command.usage usageString := by
  refine ⟨?_, ?_, ?_⟩ <;> rfl

/-- Claim C4 (amended): the `complete` command yields `ParseError` with the
user-facing message `"Please provide a valid task ID number."` exactly when
a rest is present but not parseable by Python's `int` (which accepts
surrounding whitespace, an optional sign — hence zero and negative ids —
and underscore-grouped digits), and in that case no store mutation occurs;
a missing rest yields the usage reply instead, and a parseable non-positive
number is passed on to the store lookup as an ordinary id. -/
theorem completeCmd_parse_error (rest : String) (h : pythonInt rest = none) :
    routeTask ("complete " ++ rest) = Command.parseError parseErrMsg
    ∧ (∀ (store : TaskStore) (now : Nat) (uid cid : Option String),
        handleTask store now ("complete " ++ rest) uid cid =
          (store, ⟨parseErrMsg, "ephemeral"⟩)) := by
  have hroute : routeTask ("complete " ++ rest) =
      Command.parseError parseErrMsg := by
    have hs : ∀ c ∈ ("complete" : String).data, c ≠ ' ' := by decide
    rw [show ("complete " ++ rest) = ("complete" ++ " " ++ rest) from rfl,
      routeTask_action_rest "complete" rest hs]
    rw [if_neg (by decide), if_neg (by decide), if_pos (by rfl)]
    rw [h]
  refine ⟨hroute, ?_⟩
  intro store now uid cid
  unfold handleTask
  rw [show ("complete " ++ rest) = ("complete" ++ " " ++ rest) from rfl] at hroute ⊢
  rw [hroute]

/-- Claim C4 witness: at the concrete rest `"abc"` the hypothesis holds and
the router yields the parse error. -/
theorem completeCmd_parse_error_witness :
    routeTask ("complete " ++ "abc") = Command.parseError parseErrMsg :=
  (completeCmd_parse_error "abc" (by decide)).1

/-! ### Id assignment (AUTOINCREMENT) -/

lemma createMany_ids (store : TaskStore) (now : Nat)
    (reqs : List (String × Option String)) :
    (createMany store now reqs).2 = List.range' store.nextId reqs.length := by
  induction reqs generalizing store with
  | nil => simp [createMany]
  | cons r reqs ih =>
    cases r with
    | mk title uid =>
      have hnext : (create_task store now title uid).1.nextId =
          store.nextId + 1 := rfl
      simp only [createMany, List.length_cons, List.range'_succ]
      rw [ih, hnext]
      rfl

/-- Claim C5: across any sequence of successful `create` calls on one store
instance whose id counter starts at 1 or beyond, the returned ids are
exactly the consecutive integers from the current counter — in particular
they are strictly increasing positive integers, and no id assigned is ever
assigned again by a later create. -/
theorem create_ids_strictly_increasing (store : TaskStore) (now : Nat)
    (reqs : List (String × Option String)) (h : 1 ≤ store.nextId) :
    (createMany store now reqs).2 = List.range' store.nextId reqs.length
    ∧ (createMany store now reqs).2.Pairwise (· < ·)
    ∧ (∀ i ∈ (createMany store now reqs).2, 1 ≤ i) := by
  refine ⟨createMany_ids store now reqs, ?_, ?_⟩
  · rw [createMany_ids]
    exact List.pairwise_lt_range' store.nextId reqs.length
  · rw [createMany_ids]
    intro i hi
    rw [List.mem_range'] at hi
    obtain ⟨j, _, rfl⟩ := hi
    omega

/-- Claim C5 witness: three creates on a fresh store return ids 1, 2, 3. -/
theorem create_ids_strictly_increasing_witness :
    (createMany emptyStore 0
      [("a", some "U1"), ("b", some "U1"), ("c", none)]).2 = [1, 2, 3] :=
  ((create_ids_strictly_increasing emptyStore 0
    [("a", some "U1"), ("b", some "U1"), ("c", none)] (by decide)).1).trans
    (by decide)

/-! ### Status lifecycle -/

/-- The invariants every store reachable by the core's operations
maintains: ids are positive, below the counter and pairwise distinct, the
counter is positive, and every status is `pending` or `completed`. -/
def WFStore (s : TaskStore) : Prop :=
  (∀ t ∈ s.tasks, 1 ≤ t.id ∧ t.id < s.nextId)
  ∧ (s.tasks.map Task.id).Nodup
  ∧ (∀ t ∈ s.tasks, t.status = "pending" ∨ t.status = "completed")
  ∧ 1 ≤ s.nextId

lemma wf_id_inj (s : TaskStore) (hwf : WFStore s) :
    ∀ t ∈ s.tasks, ∀ u ∈ s.tasks, u.id = t.id → u = t := by
  intro t ht u hu he
  exact List.inj_on_of_nodup_map hwf.2.1 hu ht he

/-- Claim C6: the status of every task is always `pending` or `completed`;
a task is `pending` at creation; the only transition any operation performs
is to `completed`; a `completed` task never reverts to `pending`; and no
operation deletes a task record (every id present before an operation is
present after it). All store invariants (`WFStore`) are preserved. -/
theorem task_status_invariant (store : TaskStore) (op : StoreOp)
    (hwf : WFStore store) :
    WFStore (applyOp store op)
    ∧ (∀ t ∈ store.tasks, ∃ u ∈ (applyOp store op).tasks, u.id = t.id)
    ∧ (∀ t ∈ store.tasks, ∀ u ∈ (applyOp store op).tasks, u.id = t.id →
        u = t ∨ u.status = "completed")
    ∧ (∀ t ∈ store.tasks, t.status = "completed" →
        ∀ u ∈ (applyOp store op).tasks, u.id = t.id → u.status = "completed")
    ∧ (∀ now title uid cid d, op = StoreOp.create now title uid cid d →
        ∃ u ∈ (applyOp store op).tasks,
          u.id = store.nextId ∧ u.status = "pending" ∧ u.title = title) := by
  have main : WFStore (applyOp store op)
      ∧ (∀ t ∈ store.tasks, ∃ u ∈ (applyOp store op).tasks, u.id = t.id)
      ∧ (∀ t ∈ store.tasks, ∀ u ∈ (applyOp store op).tasks, u.id = t.id →
          u = t ∨ u.status = "completed") := by
    cases op with
    | create now title uid cid d =>
      have htasks : (applyOp store (StoreOp.create now title uid cid d)).tasks =
          store.tasks ++ [⟨store.nextId, title, d, "pending", now, now, uid, cid⟩] := rfl
      have hnext : (applyOp store (StoreOp.create now title uid cid d)).nextId =
          store.nextId + 1 := rfl
      refine ⟨⟨?_, ?_, ?_, ?_⟩, ?_, ?_⟩
      · intro t ht
        rw [htasks] at ht
        rw [hnext]
        rcases List.mem_append.1 ht with h1 | h1
        · have := hwf.1 t h1
          omega
        · simp at h1
          rw [h1]
          have := hwf.2.2.2
          constructor <;> simp <;> omega
      · rw [htasks]
        rw [List.map_append]
        rw [List.nodup_append]
        refine ⟨hwf.2.1, by simp, ?_⟩
        intro x hx
        obtain ⟨t, ht, rfl⟩ := List.mem_map.1 hx
        have := (hwf.1 t ht).2
        simp
        omega
      · intro t ht
        rw [htasks] at ht
        rcases List.mem_append.1 ht with h1 | h1
        · exact hwf.2.2.1 t h1
        · simp at h1
          rw [h1]
          exact Or.inl rfl
      · rw [hnext]
        omega
      · intro t ht
        refine ⟨t, ?_, rfl⟩
        rw [htasks]
        exact List.mem_append_left _ ht
      · intro t ht u hu he
        rw [htasks] at hu
        rcases List.mem_append.1 hu with h1 | h1
        · exact Or.inl (wf_id_inj store hwf t ht u h1 he)
        · simp at h1
          exfalso
          have hlt := (hwf.1 t ht).2
          have : u.id = store.nextId := by rw [h1]
          omega
    | complete now tid uid =>
      have htasks : (applyOp store (StoreOp.complete now tid uid)).tasks =
          store.tasks.map (completeRow now tid uid) := rfl
      have hnext : (applyOp store (StoreOp.complete now tid uid)).nextId =
          store.nextId := rfl
      have hids : (applyOp store (StoreOp.complete now tid uid)).tasks.map Task.id =
          store.tasks.map Task.id := by
        rw [htasks, List.map_map]
        exact List.map_congr_left (fun t _ => completeRow_id now tid uid t)
      refine ⟨⟨?_, ?_, ?_, ?_⟩, ?_, ?_⟩
      · intro t ht
        rw [htasks] at ht
        obtain ⟨t', ht', rfl⟩ := List.mem_map.1 ht
        rw [hnext, completeRow_id]
        exact hwf.1 t' ht'
      · rw [hids]
        exact hwf.2.1
      · intro t ht
        rw [htasks] at ht
        obtain ⟨t', ht', rfl⟩ := List.mem_map.1 ht
        rcases completeRow_status now tid uid t' with h1 | h1
        · exact Or.inr h1
        · rw [h1]
          exact hwf.2.2.1 t' ht'
      · rw [hnext]
        exact hwf.2.2.2
      · intro t ht
        refine ⟨completeRow now tid uid t, ?_, completeRow_id now tid uid t⟩
        rw [htasks]
        exact List.mem_map_of_mem _ ht
      · intro t ht u hu he
        rw [htasks] at hu
        obtain ⟨t', ht', rfl⟩ := List.mem_map.1 hu
        rcases completeRow_status now tid uid t' with h1 | h1
        · exact Or.inr h1
        · rw [h1]
          rw [h1] at he
          exact Or.inl (wf_id_inj store hwf t ht t' ht' he)
  refine ⟨main.1, main.2.1, main.2.2, ?_, ?_⟩
  · intro t ht hc u hu he
    rcases main.2.2 t ht u hu he with h1 | h1
    · rw [h1, hc]
    · exact h1
  · intro now title uid cid d hop
    subst hop
    refine ⟨⟨store.nextId, title, d, "pending", now, now, uid, cid⟩, ?_, rfl, rfl, rfl⟩
    show _ ∈ store.tasks ++ [_]
    exact List.mem_append_right _ (by simp)

/-- Claim C6 witness: a create on the fresh store preserves all invariants
of `WFStore`. -/
theorem task_status_invariant_witness :
    WFStore (applyOp emptyStore (StoreOp.create 0 "t" (some "U1") none "")) :=
  (task_status_invariant emptyStore (StoreOp.create 0 "t" (some "U1") none "")
    (by refine ⟨?_, ?_, ?_, ?_⟩ <;> simp [emptyStore])).1

/-! ### Listing -/

/-- Claim C7: `list_by_owner` returns exactly the tasks whose owner matches
the given owner (a permutation of the matching rows — never a task of
another owner), sorted by `created_at` descending, and the empty list (not
an error) when the owner has no tasks. -/
theorem get_user_tasks_correct (store : TaskStore) (owner : Option String) :
    (get_user_tasks store owner).Perm
      (store.tasks.filter (fun t => sqlEq t.userId owner))
    ∧ (∀ t ∈ get_user_tasks store owner,
        sqlEq t.userId owner = true ∧ t ∈ store.tasks)
    ∧ (∀ t ∈ store.tasks, sqlEq t.userId owner = true →
        t ∈ get_user_tasks store owner)
    ∧ (get_user_tasks store owner).Sorted byCreatedDesc
    ∧ ((∀ t ∈ store.tasks, sqlEq t.userId owner = false) →
        get_user_tasks store owner = []) := by
  have hperm : (get_user_tasks store owner).Perm
      (store.tasks.filter (fun t => sqlEq t.userId owner)) :=
    List.perm_insertionSort byCreatedDesc _
  refine ⟨hperm, ?_, ?_, ?_, ?_⟩
  · intro t ht
    have hmem := hperm.mem_iff.1 ht
    exact ⟨(List.mem_filter.1 hmem).2, (List.mem_filter.1 hmem).1⟩
  · intro t ht hm
    exact hperm.mem_iff.2 (List.mem_filter.2 ⟨ht, hm⟩)
  · exact List.sorted_insertionSort byCreatedDesc _
  · intro h
    have hf : store.tasks.filter (fun t => sqlEq t.userId owner) = [] :=
      List.filter_eq_nil_iff.2 (by intro a ha; simp [h a ha])
    rw [hf] at hperm
    exact hperm.eq_nil

/-! ### Assistant gateway -/

/-- Claim C8: `chat_with_openai` always returns a text reply and never
propagates a failure: with a falsy key it returns the fixed instructional
"not configured" string; with a key configured, an authentication failure,
a rate-limit failure and any other failure each become their short fixed
human-readable string, and a success becomes the stripped reply. -/
theorem chat_with_openai_never_raises (cfg : OpenAIConfig)
    (outcome : OpenAIOutcome) (msg : String) (uid : Option String) :
    (pyTruthy cfg.apiKey = false →
      chat_with_openai cfg outcome msg uid = notConfiguredMsg)
    ∧ (pyTruthy cfg.apiKey = true →
        chat_with_openai cfg outcome msg uid =
          (match outcome with
           | OpenAIOutcome.success r => r.trim
           | OpenAIOutcome.authFailure => authFailedMsg
           | OpenAIOutcome.rateLimited => rateLimitMsg
           | OpenAIOutcome.otherFailure _ => otherErrMsg))
    ∧ (chat_with_openai cfg outcome msg uid = notConfiguredMsg
       ∨ (∃ r, outcome = OpenAIOutcome.success r
            ∧ chat_with_openai cfg outcome msg uid = r.trim)
       ∨ chat_with_openai cfg outcome msg uid = authFailedMsg
       ∨ chat_with_openai cfg outcome msg uid = rateLimitMsg
       ∨ chat_with_openai cfg outcome msg uid = otherErrMsg) := by
  refine ⟨?_, ?_, ?_⟩
  · intro h
    simp [chat_with_openai, h]
  · intro h
    simp [chat_with_openai, h]
  · by_cases h : pyTruthy cfg.apiKey = false
    · exact Or.inl (by simp [chat_with_openai, h])
    · cases outcome with
      | success r =>
        exact Or.inr (Or.inl ⟨r, rfl, by simp [chat_with_openai, h]⟩)
      | authFailure =>
        exact Or.inr (Or.inr (Or.inl (by simp [chat_with_openai, h])))
      | rateLimited =>
        exact Or.inr (Or.inr (Or.inr (Or.inl (by simp [chat_with_openai, h]))))
      | otherFailure m =>
        exact Or.inr (Or.inr (Or.inr (Or.inr (by simp [chat_with_openai, h]))))

/-! ### Event dispatch -/

/-- Claim C9 counterexample: an event that carries a bot-identity marker —
`bot_id` present with the empty-string value, which Python's truthiness
test `not event.get('bot_id')` treats as absent — still invokes the
gateway when the trigger phrase occurs, contradicting "an event carrying a
bot-identity marker never invokes the gateway". -/
theorem slack_events_bot_marker_cex :
    (slack_events ⟨some "k"⟩ (OpenAIOutcome.success "hi")
      ⟨"message", some "", none, none, some "ai assistant"⟩).gatewayCalled
      = true := by
  rfl

/-- Claim C9 (amended): a message event invokes the assistant gateway iff
its `bot_id` is Python-falsy (absent or empty) and its text contains the
trigger phrase `"ai assistant"` as a case-insensitive substring; an event
whose bot-identity marker is non-empty (truthy) never invokes the gateway;
and the synchronous acknowledgment is the constant status-ok body,
independent of the gateway's reply. -/
theorem slack_events_amended (cfg : OpenAIConfig) (outcome : OpenAIOutcome)
    (ev : SlackMessageEvent) :
    ((slack_events cfg outcome ev).gatewayCalled = true ↔
      (ev.eventType = "message" ∧ pyTruthy ev.botId = false
        ∧ hasSub triggerPhrase.data (pyLower (ev.text.getD "")).data = true))
    ∧ (slack_events cfg outcome ev).ackStatus = "ok"
    ∧ (pyTruthy ev.botId = true →
        (slack_events cfg outcome ev).gatewayCalled = false) := by
  by_cases h1 : ev.eventType = "message" ∧ pyTruthy ev.botId = false
  · cases htr : hasSub triggerPhrase.data (pyLower (ev.text.getD "")).data with
    | true =>
      have hres : slack_events cfg outcome ev =
          ⟨"ok", true, some (chat_with_openai cfg outcome (ev.text.getD "")
            ev.user)⟩ := by
        simp only [slack_events, if_pos h1, htr, if_pos]
      refine ⟨?_, by rw [hres], ?_⟩
      · rw [hres]
        exact ⟨fun _ => ⟨h1.1, h1.2, rfl⟩, fun _ => rfl⟩
      · intro hb
        rw [h1.2] at hb
        exact absurd hb (by simp)
    | false =>
      have hres : slack_events cfg outcome ev = ⟨"ok", false, none⟩ := by
        simp only [slack_events, if_pos h1, htr, if_neg]
        simp
      refine ⟨?_, by rw [hres], fun _ => by rw [hres]⟩
      rw [hres]
      constructor
      · intro h
        exact Bool.noConfusion h
      · rintro ⟨_, _, h3⟩
        exact Bool.noConfusion h3
  · have hres : slack_events cfg outcome ev = ⟨"ok", false, none⟩ := by
      simp only [slack_events, if_neg h1]
    refine ⟨?_, by rw [hres], fun _ => by rw [hres]⟩
    rw [hres]
    constructor
    · intro h
      exact Bool.noConfusion h
    · rintro ⟨ha, hb, _⟩
      exact absurd ⟨ha, hb⟩ h1

/-! ### Default owner of direct API calls -/

/-- Claim C10: a direct `POST /tasks` that omits `user_id` creates its task
owned by the fixed `"api_user"`; that task is listed by the unscoped
listing, and a later `complete` presented with the same default owner
succeeds on it; the `/chat` endpoint attributes an omitted `user_id` to the
same `"api_user"`. -/
theorem api_user_default_owner (store : TaskStore) (now : Nat) (ttl : String)
    (d : Option String) (cid : Option String) :
    ∃ tid : Nat,
      (tasks_post store now ⟨some ttl, d, none, cid⟩).2 = some tid
      ∧ (∃ t ∈ (tasks_post store now ⟨some ttl, d, none, cid⟩).1.tasks,
          t.id = tid ∧ t.userId = some "api_user" ∧ t.title = ttl)
      ∧ (complete_task (tasks_post store now ⟨some ttl, d, none, cid⟩).1 now
          (Int.ofNat tid) (some "api_user")).2 = true
      ∧ (∃ t ∈ get_all_tasks (tasks_post store now ⟨some ttl, d, none, cid⟩).1,
          t.id = tid ∧ t.userId = some "api_user")
      ∧ chatUserId none = "api_user" := by
  have htasks : (tasks_post store now ⟨some ttl, d, none, cid⟩).1.tasks =
      store.tasks ++ [⟨store.nextId, ttl, d.getD "", "pending", now, now,
        some "api_user", cid⟩] := rfl
  have hmem : (⟨store.nextId, ttl, d.getD "", "pending", now, now,
      some "api_user", cid⟩ : Task)
      ∈ (tasks_post store now ⟨some ttl, d, none, cid⟩).1.tasks := by
    rw [htasks]
    exact List.mem_append_right _ (by simp)
  refine ⟨store.nextId, rfl, ?_, ?_, ?_, rfl⟩
  · exact ⟨_, hmem, rfl, rfl, rfl⟩
  · apply (complete_task_true_iff _ now (Int.ofNat store.nextId)
      (some "api_user")).2
    refine ⟨_, hmem, ?_⟩
    simp [rowMatch, sqlEq]
  · refine ⟨⟨store.nextId, ttl, d.getD "", "pending", now, now,
      some "api_user", cid⟩, ?_, rfl, rfl⟩
    exact (List.perm_insertionSort byCreatedDesc _).mem_iff.2 hmem

end Main
